import Mathlib

/-!
Verification development for a batch service-account key lifecycle tool
(three Python scripts: makesakeys.py, removesakeys.py, serviceaccountfactory.py).

The scripts are shallowly embedded: each provider (cloud IAM) call is an
oracle supplied as a function argument, sleeps are recorded as rational
durations in traces, and the batch loops are modelled as fuelled recursion
on explicit queues.
-/

/- ## Batch driver: pass loop with failure collection and windowed cooldown

Embeds the shared loop shape of makesakeys.py lines 97-117 and
serviceaccountfactory.py lines 203-224:

    while key_creation_queue:
        failed_tasks = []
        for i, item in enumerate(key_creation_queue):
            if not op(item): failed_tasks.append(item)
            if (i + 1) % 4 == 0 and (i + 1) < total: time.sleep(cool)
        if not failed_tasks: break
        key_creation_queue = failed_tasks
        time.sleep(10)
-/

/-- Cooldown guard of the pass loops: Python
`(i + 1) % 4 == 0 and (i + 1) < total` (0-based index `i`). -/
def cooldownAfter (total i : Nat) : Bool :=
  decide ((i + 1) % 4 = 0 ∧ i + 1 < total)

/-- 0-based indices of the items after which a cooldown sleep fires in a
pass over `total` items. -/
def cooldownIndices (total : Nat) : List Nat :=
  (List.range total).filter (cooldownAfter total)

/-- One pass of the batch loop body, from index `i` of a run over `total`
items: collects items whose operation returned failure (in order) and the
cooldown sleeps of duration `cool` emitted by the rate-limiter guard. -/
def runPassAux {α : Type} (op : α → Bool) (cool : ℚ) (total : Nat) :
    Nat → List α → List α × List ℚ
  | _, [] => ([], [])
  | i, x :: xs =>
    let rest := runPassAux op cool total (i + 1) xs
    (if op x then rest.1 else x :: rest.1,
     if cooldownAfter total i then cool :: rest.2 else rest.2)

/-- The failed-task list a pass collects (the pass loop appends `item`
to `failed_tasks` exactly when the per-item operation returns failure). -/
def failedOfPass {α : Type} (op : α → Bool) (q : List α) : List α :=
  q.filter (fun x => ! op x)

/-- Key-creation pass (makesakeys.py lines 100-109 and
serviceaccountfactory.py lines 206-216): failure collection plus a 10 s
cooldown after every 4th item that is not the run's last. -/
def keyCreationPass {α : Type} (op : α → Bool) (q : List α) : List α × List ℚ :=
  runPassAux op 10 q.length 0 q

/-- Account-creation loop (serviceaccountfactory.py lines 161-168): the
return value of `create_service_account` is ignored (no failure
collection); a 20 s cooldown fires after every 4th item that is not the
run's last.  Only the sleep trace is observable. -/
def accountCreationSleeps (numbers : List Nat) : List ℚ :=
  (runPassAux (fun _ => true) 20 numbers.length 0 numbers).2

/-- Key-deletion pass of the factory (serviceaccountfactory.py lines
184-188): failure collection only; the loop body contains no windowed
cooldown sleep. -/
def keyDeletionPass {α : Type} (op : α → Bool) (q : List α) : List α × List ℚ :=
  (q.filter (fun x => ! op x), [])

/-- Driver loop of the standalone deletion tool (removesakeys.py lines
128-142): one fixed 0.2 s sleep after every processed account, no
windowed cooldown. -/
def removesakeysLoopSleeps (accounts : List String) : List ℚ :=
  accounts.map (fun _ => 1 / 5)

/-- Observable outcome of a terminating batch-driver run: number of passes
executed, the inter-pass sleeps (10 s each), and the failed list at
termination (always empty: the loop only exits via the empty-failure
break or an initially empty queue). -/
structure DriverResult (α : Type) where
  passes : Nat
  interSleeps : List ℚ
  finalFailed : List α
deriving DecidableEq

/-- The batch driver's pass loop, fuelled.  `op p x` is the result of the
per-item operation on item `x` during pass number `p` (the external world
may change between passes).  `none` means the fuel ran out with the queue
still non-empty — the source loop has no pass bound at all. -/
def driver {α : Type} (op : Nat → α → Bool) :
    Nat → Nat → List α → Option (DriverResult α)
  | _, _, [] => some ⟨0, [], []⟩
  | 0, _, _ :: _ => none
  | fuel + 1, p, x :: xs =>
    let failed := failedOfPass (op p) (x :: xs)
    if failed.isEmpty then some ⟨1, [], []⟩
    else (driver op fuel (p + 1) failed).map
      (fun t => ⟨t.passes + 1, 10 :: t.interSleeps, t.finalFailed⟩)

/- ### Helper lemmas on the pass loop -/

theorem runPassAux_fst {α : Type} (op : α → Bool) (cool : ℚ) (total : Nat) :
    ∀ (i : Nat) (xs : List α),
      (runPassAux op cool total i xs).1 = xs.filter (fun x => ! op x) := by
  intro i xs
  induction xs generalizing i with
  | nil => rfl
  | cons x xs ih =>
    simp only [runPassAux, List.filter_cons, ih]
    cases h : op x <;> simp [h]

theorem runPassAux_snd {α : Type} (op : α → Bool) (cool : ℚ) (total : Nat) :
    ∀ (i : Nat) (xs : List α),
      (runPassAux op cool total i xs).2 =
        ((List.range' i xs.length).filter (cooldownAfter total)).map
          (fun _ => cool) := by
  intro i xs
  induction xs generalizing i with
  | nil => rfl
  | cons x xs ih =>
    simp only [runPassAux, List.length_cons, List.range'_succ, List.filter_cons, ih]
    cases h : cooldownAfter total i <;> simp [h]

theorem mem_failedOfPass {α : Type} (op : α → Bool) (q : List α) (x : α) :
    x ∈ failedOfPass op q ↔ x ∈ q ∧ op x = false := by
  simp [failedOfPass]

theorem driver_requeue {α : Type} (op : Nat → α → Bool) (fuel p : Nat)
    (r : List α) (hr : r ≠ []) (hf : failedOfPass (op p) r ≠ []) :
    driver op (fuel + 1) p r =
      (driver op fuel (p + 1) (failedOfPass (op p) r)).map
        (fun t => ⟨t.passes + 1, 10 :: t.interSleeps, t.finalFailed⟩) := by
  match r with
  | [] => exact absurd rfl hr
  | x :: xs =>
    have hne : (failedOfPass (op p) (x :: xs)).isEmpty = false := by
      cases h : failedOfPass (op p) (x :: xs) with
      | nil => exact absurd h hf
      | cons y ys => rfl
    simp only [driver, hne]
    rfl

theorem driver_converged {α : Type} (op : Nat → α → Bool) (fuel p : Nat)
    (x : α) (xs : List α) (hf : failedOfPass (op p) (x :: xs) = []) :
    driver op (fuel + 1) p (x :: xs) = some ⟨1, [], []⟩ := by
  simp only [driver, hf]
  rfl

/-- C1: Batch Driver retry queue: items whose per-item operation returns
failure are collected into a new queue; after the pass completes, if that
queue is non-empty the driver sleeps 10 seconds and reprocesses exactly
that queue, repeating until a pass produces zero failures; if one item
fails exactly once and then succeeds (all others always succeeding), the
driver completes within 2 passes and ends with zero failed items. -/
theorem C1_batch_driver_retry {α : Type} (op : Nat → α → Bool) (q : List α)
    (b : α) (hb : b ∈ q) (hb0 : op 0 b = false)
    (hothers : ∀ x, x ∈ q → op 0 x = false → x = b)
    (hlater : ∀ n, 1 ≤ n → ∀ x : α, op n x = true) :
    (∀ (p : Nat) (r : List α) (x : α),
        x ∈ failedOfPass (op p) r ↔ x ∈ r ∧ op p x = false)
    ∧ (∀ (fuel p : Nat) (r : List α), r ≠ [] → failedOfPass (op p) r ≠ [] →
        driver op (fuel + 1) p r =
          (driver op fuel (p + 1) (failedOfPass (op p) r)).map
            (fun t => ⟨t.passes + 1, 10 :: t.interSleeps, t.finalFailed⟩))
    ∧ (∀ x, x ∈ failedOfPass (op 0) q → x = b)
    ∧ driver op 2 0 q = some ⟨2, [10], []⟩ := by
  refine ⟨fun p r x => mem_failedOfPass (op p) r x,
          fun fuel p r hr hf => driver_requeue op fuel p r hr hf, ?_, ?_⟩
  · intro x hx
    rcases (mem_failedOfPass (op 0) q x).1 hx with ⟨hxq, hxf⟩
    exact hothers x hxq hxf
  · have hbf : b ∈ failedOfPass (op 0) q :=
      (mem_failedOfPass (op 0) q b).2 ⟨hb, hb0⟩
    have hq : q ≠ [] := by
      intro h
      rw [h] at hb
      exact absurd hb (List.not_mem_nil b)
    have hf : failedOfPass (op 0) q ≠ [] := by
      intro h
      rw [h] at hbf
      exact absurd hbf (List.not_mem_nil b)
    rw [driver_requeue op 1 0 q hq hf]
    match hfq : failedOfPass (op 0) q with
    | [] => exact absurd hfq hf
    | y :: ys =>
      have h2 : failedOfPass (op 1) (y :: ys) = [] := by
        apply List.filter_eq_nil_iff.2
        intro a _
        simp [hlater 1 le_rfl a]
      rw [driver_converged op 0 1 y ys h2]
      rfl

def c1op (n x : Nat) : Bool := ! (n == 0 && x == 2)

theorem C1_batch_driver_retry_witness :
    driver c1op 2 0 [1, 2, 3] = some ⟨2, [10], []⟩ :=
  (C1_batch_driver_retry c1op [1, 2, 3] 2 (by decide) (by decide)
    (by decide)
    (fun n hn x => by
      match n, hn with
      | m + 1, _ => rfl)).2.2.2

/-- C8: Unbounded batch retry: the pass loop has no maximum pass count,
so an item whose operation fails on every attempt is in every pass's
failure queue and the driver diverges: no amount of fuel makes the
fuelled loop terminate. -/
theorem C8_unbounded_retry {α : Type} (op : Nat → α → Bool) (q : List α)
    (b : α) (hb : b ∈ q) (hfail : ∀ n, op n b = false) :
    (∀ (p : Nat) (r : List α), b ∈ r → b ∈ failedOfPass (op p) r)
    ∧ ∀ (fuel p : Nat), driver op fuel p q = none := by
  have hmem : ∀ (p : Nat) (r : List α), b ∈ r → b ∈ failedOfPass (op p) r :=
    fun p r hr => (mem_failedOfPass (op p) r b).2 ⟨hr, hfail p⟩
  refine ⟨hmem, ?_⟩
  have main : ∀ (fuel p : Nat) (r : List α), b ∈ r → driver op fuel p r = none := by
    intro fuel
    induction fuel with
    | zero =>
      intro p r hr
      match r with
      | [] => exact absurd hr (List.not_mem_nil b)
      | x :: xs => rfl
    | succ fuel ih =>
      intro p r hr
      have hrne : r ≠ [] := by
        intro h
        rw [h] at hr
        exact absurd hr (List.not_mem_nil b)
      have hfne : failedOfPass (op p) r ≠ [] := by
        intro h
        have := hmem p r hr
        rw [h] at this
        exact absurd this (List.not_mem_nil b)
      cases r with
      | nil => exact absurd rfl hrne
      | cons x xs =>
        rw [driver_requeue op fuel p (x :: xs) hrne hfne,
            ih (p + 1) _ (hmem p (x :: xs) hr)]
        rfl
  exact fun fuel p => main fuel p q hb

def c8op (_ _ : Nat) : Bool := false

theorem C8_unbounded_retry_witness : driver c8op 5 0 [0] = none :=
  (C8_unbounded_retry c8op [0] 0 (by decide) (fun n => rfl)).2 5 0

/- ## C2: windowed cooldown -/

/-- Concrete 9-item work list of account emails for the deletion pass. -/
def delQ9 : List String :=
  ["a1", "a2", "a3", "a4", "a5", "a6", "a7", "a8", "a9"]

/-- C2 counterexample: the claim asserts a cooldown pause after every 4th
item for every work list, including key deletion at 10 s, with exactly 2
pauses for a 9-item list.  The factory's key-deletion pass
(serviceaccountfactory.py lines 184-188) contains no windowed cooldown:
on a 9-item list it emits zero cooldown sleeps, not 2. -/
theorem C2_deletion_no_cooldown :
    (keyDeletionPass (fun _ => true) delQ9).2 = [] ∧
    (keyDeletionPass (fun _ => true) delQ9).2.length ≠ 2 := by
  constructor
  · rfl
  · decide

/-- C2 (amended): in the key-creation passes (10 s) and the
account-creation loop (20 s) a cooldown fires exactly after every 4th
processed item that is not the run's last: for 9 items that is after
items 4 and 8 (0-based indices 3 and 7) and not after item 9.  The
key-deletion loops emit no windowed cooldown at all (the standalone
deletion tool sleeps a fixed 0.2 s after every item instead). -/
theorem C2_cooldown_amended {α : Type} (op : α → Bool) (q : List α)
    (numbers : List Nat) (accounts : List String) (total i : Nat) :
    ((keyCreationPass op q).2 = (cooldownIndices q.length).map (fun _ => (10 : ℚ)))
    ∧ (accountCreationSleeps numbers =
        (cooldownIndices numbers.length).map (fun _ => (20 : ℚ)))
    ∧ (i ∈ cooldownIndices total ↔ (i + 1) % 4 = 0 ∧ i + 1 < total)
    ∧ cooldownIndices 9 = [3, 7]
    ∧ (keyDeletionPass op q).2 = []
    ∧ removesakeysLoopSleeps accounts = accounts.map (fun _ => 1 / 5) := by
  refine ⟨?_, ?_, ?_, by decide, rfl, rfl⟩
  · rw [keyCreationPass, runPassAux_snd, cooldownIndices, List.range_eq_range']
  · rw [accountCreationSleeps, runPassAux_snd, cooldownIndices, List.range_eq_range']
  · simp only [cooldownIndices, List.mem_filter, List.mem_range, cooldownAfter,
      decide_eq_true_eq]
    omega

/- ## Key Manager: list-and-delete with retry

Embeds removesakeys.py lines 35-74 (`delete_keys_for_account`) and
serviceaccountfactory.py lines 20-56 (`delete_all_user_keys_with_retry`).
The provider is an oracle indexed by the attempt number: `listKeys a` is
what the list call returns during attempt `a`, `deleteKey a k` is the
error (if any) raised by deleting key `k` during attempt `a`. -/

/-- Provider-side error classes relevant to the scripts.
`retryError` is google.api_core RetryError (not a GoogleAPICallError);
`otherExc` is any exception outside the google.api_core hierarchy. -/
inductive ApiError where
  | aborted
  | deadlineExceeded
  | serviceUnavailable
  | retryError
  | permissionDenied
  | invalidArgument
  | alreadyExists
  | otherCallError
  | otherExc
deriving DecidableEq

/-- Transient tuple of removesakeys.py line 64:
`(Aborted, DeadlineExceeded, ServiceUnavailable)`. -/
def isTransientRm : ApiError → Bool
  | .aborted | .deadlineExceeded | .serviceUnavailable => true
  | _ => false

/-- Membership in the GoogleAPICallError hierarchy caught at
removesakeys.py line 69. -/
def isGoogleAPICallError : ApiError → Bool
  | .retryError | .otherExc => false
  | _ => true

/-- Transient tuple of serviceaccountfactory.py line 46:
`(Aborted, DeadlineExceeded, ServiceUnavailable, RetryError)`. -/
def isTransientSaf : ApiError → Bool
  | .aborted | .deadlineExceeded | .serviceUnavailable | .retryError => true
  | _ => false

/-- Attempt-indexed provider oracle for one account's keys. -/
structure DeleteEnv where
  listKeys : Nat → Except ApiError (List String)
  deleteKey : Nat → String → Option ApiError

/-- The inner delete loop of one attempt: issues one delete call per key
name until one raises; returns the number of delete calls issued and the
first error, if any. -/
def runDeletes (env : DeleteEnv) (a : Nat) : List String → Nat × Option ApiError
  | [] => (0, none)
  | k :: ks =>
    match env.deleteKey a k with
    | none =>
      let rest := runDeletes env a ks
      (rest.1 + 1, rest.2)
    | some e => (1, some e)

/-- How one attempt of removesakeys' `delete_keys_for_account` ends:
normal return of a count, a caught transient error (loop continues), a
caught GoogleAPICallError (`return -1`), or an uncaught exception that
propagates out of the function. -/
inductive AttemptStep where
  | ret (n : Nat)
  | caughtTransient (e : ApiError)
  | caughtHard
  | uncaught (e : ApiError)
deriving DecidableEq

/-- Exception dispatch of removesakeys.py lines 64-71: the transient
tuple is caught first, then GoogleAPICallError; anything else escapes. -/
def classifyRm (e : ApiError) : AttemptStep :=
  if isTransientRm e then .caughtTransient e
  else if isGoogleAPICallError e then .caughtHard
  else .uncaught e

/-- One attempt of removesakeys' `delete_keys_for_account` (the `try`
body, lines 40-62): list the user-managed keys, return 0 if none,
otherwise delete each; the second component counts delete calls issued. -/
def rmAttempt (env : DeleteEnv) (a : Nat) : AttemptStep × Nat :=
  match env.listKeys a with
  | .error e => (classifyRm e, 0)
  | .ok [] => (.ret 0, 0)
  | .ok (k :: ks) =>
    let d := runDeletes env a (k :: ks)
    match d.2 with
    | none => (.ret d.1, d.1)
    | some e => (classifyRm e, d.1)

/-- Observable trace of a `delete_keys_for_account` run: the returned
value (`.ok n` with `n = -1` for failure, `.error e` when an exception
propagates), attempts made, backoff sleeps, and delete calls issued. -/
structure DelTrace where
  result : Except ApiError Int
  attempts : Nat
  sleeps : List ℚ
  calls : Nat

/-- The `for attempt in range(retries)` loop of removesakeys.py lines
39-74, recursing on the remaining attempt budget; falling off the loop
returns -1. A transient attempt sleeps `backoff_factor ** attempt`. -/
def rmLoop (env : DeleteEnv) (backoff : ℚ) (attempt : Nat) : Nat → DelTrace
  | 0 => ⟨.ok (-1), 0, [], 0⟩
  | r + 1 =>
    match rmAttempt env attempt with
    | (.ret n, c) => ⟨.ok (n : Int), 1, [], c⟩
    | (.caughtHard, c) => ⟨.ok (-1), 1, [], c⟩
    | (.uncaught e, c) => ⟨.error e, 1, [], c⟩
    | (.caughtTransient _, c) =>
      let t := rmLoop env backoff (attempt + 1) r
      ⟨t.result, t.attempts + 1, backoff ^ attempt :: t.sleeps, c + t.calls⟩

/-- removesakeys.py `delete_keys_for_account` with its default arguments
`retries=3, backoff_factor=1.5`. -/
def delete_keys_for_account (env : DeleteEnv) : DelTrace :=
  rmLoop env (3 / 2) 0 3

/-- How one attempt of the factory's `delete_all_user_keys_with_retry`
ends: `return True`, a caught transient error, or `return False` (the
factory's final handler catches every remaining exception). -/
inductive SafStep where
  | retTrue
  | caughtTransient (e : ApiError)
  | failFalse
deriving DecidableEq

/-- Exception dispatch of serviceaccountfactory.py lines 46-53. -/
def classifySaf (e : ApiError) : SafStep :=
  if isTransientSaf e then .caughtTransient e else .failFalse

/-- One attempt of the factory's `delete_all_user_keys_with_retry`
(lines 28-44). -/
def safAttempt (env : DeleteEnv) (a : Nat) : SafStep × Nat :=
  match env.listKeys a with
  | .error e => (classifySaf e, 0)
  | .ok [] => (.retTrue, 0)
  | .ok (k :: ks) =>
    let d := runDeletes env a (k :: ks)
    match d.2 with
    | none => (.retTrue, d.1)
    | some e => (classifySaf e, d.1)

/-- Observable trace of a `delete_all_user_keys_with_retry` run. -/
structure SafTrace where
  result : Bool
  attempts : Nat
  sleeps : List ℚ
  calls : Nat
deriving DecidableEq

/-- The attempt loop of serviceaccountfactory.py lines 27-56; falling off
the loop returns False. -/
def safLoop (env : DeleteEnv) (backoff : ℚ) (attempt : Nat) : Nat → SafTrace
  | 0 => ⟨false, 0, [], 0⟩
  | r + 1 =>
    match safAttempt env attempt with
    | (.retTrue, c) => ⟨true, 1, [], c⟩
    | (.failFalse, c) => ⟨false, 1, [], c⟩
    | (.caughtTransient _, c) =>
      let t := safLoop env backoff (attempt + 1) r
      ⟨t.result, t.attempts + 1, backoff ^ attempt :: t.sleeps, c + t.calls⟩

/-- serviceaccountfactory.py `delete_all_user_keys_with_retry` with its
default arguments `retries=3, backoff_factor=2`. -/
def delete_all_user_keys_with_retry (env : DeleteEnv) : SafTrace :=
  safLoop env 2 0 3

/- ### Helper lemmas on the delete loops -/

theorem runDeletes_success (env : DeleteEnv) (a : Nat) :
    ∀ (ks : List String), (∀ k ∈ ks, env.deleteKey a k = none) →
      runDeletes env a ks = (ks.length, none) := by
  intro ks h
  induction ks with
  | nil => rfl
  | cons k ks ih =>
    have hk : env.deleteKey a k = none := h k (List.mem_cons_self k ks)
    have ihh := ih (fun x hx => h x (List.mem_cons_of_mem k hx))
    simp only [runDeletes, hk, ihh, List.length_cons]

theorem rmAttempt_success (env : DeleteEnv) (a : Nat) (ks : List String)
    (hlist : env.listKeys a = .ok ks)
    (hdel : ∀ k ∈ ks, env.deleteKey a k = none) :
    rmAttempt env a = (.ret ks.length, ks.length) := by
  cases ks with
  | nil => simp only [rmAttempt, hlist, List.length_nil]
  | cons k ks =>
    simp only [rmAttempt, hlist, runDeletes_success env a (k :: ks) hdel]

/-- C3: Key Manager list-and-delete: when the listing returns K
user-managed keys (and deletion raises nothing), the operation issues
exactly K delete calls and returns K; with 0 user-managed keys it
returns 0 and issues zero delete calls. -/
theorem C3_delete_count (env : DeleteEnv) (ks : List String)
    (hlist : env.listKeys 0 = .ok ks)
    (hdel : ∀ k ∈ ks, env.deleteKey 0 k = none) :
    (delete_keys_for_account env).result = .ok (ks.length : Int)
    ∧ (delete_keys_for_account env).calls = ks.length
    ∧ (ks = [] →
        (delete_keys_for_account env).result = .ok 0
        ∧ (delete_keys_for_account env).calls = 0) := by
  have hstep : rmAttempt env 0 = (.ret ks.length, ks.length) :=
    rmAttempt_success env 0 ks hlist hdel
  have hrun : delete_keys_for_account env = ⟨.ok (ks.length : Int), 1, [], ks.length⟩ := by
    simp only [delete_keys_for_account, rmLoop, hstep]
  refine ⟨by rw [hrun], by rw [hrun], ?_⟩
  intro hnil
  subst hnil
  exact ⟨by rw [hrun]; rfl, by rw [hrun]; rfl⟩

/-- Provider oracle with two user-managed keys and no errors. -/
def c3env : DeleteEnv where
  listKeys := fun _ => .ok ["key1", "key2"]
  deleteKey := fun _ _ => none

theorem C3_delete_count_witness :
    (delete_keys_for_account c3env).result = .ok (2 : Int)
    ∧ (delete_keys_for_account c3env).calls = 2 := by
  have h := C3_delete_count c3env ["key1", "key2"] rfl (by decide)
  exact ⟨h.1, h.2.1⟩

/- ### Skipping transient attempts -/

theorem rmLoop_shift (env : DeleteEnv) (backoff : ℚ) :
    ∀ (j a r : Nat), j ≤ r →
      (∀ i, i < j → ∃ e, (rmAttempt env (a + i)).1 = .caughtTransient e) →
      (rmLoop env backoff a r).result = (rmLoop env backoff (a + j) (r - j)).result
      ∧ (rmLoop env backoff a r).attempts =
          j + (rmLoop env backoff (a + j) (r - j)).attempts
      ∧ (rmLoop env backoff a r).sleeps =
          ((List.range' a j).map (fun i => backoff ^ i)) ++
            (rmLoop env backoff (a + j) (r - j)).sleeps := by
  intro j
  induction j with
  | zero =>
    intro a r _ _
    simp
  | succ j ih =>
    intro a r hjr h
    obtain ⟨r', rfl⟩ : ∃ r', r = r' + 1 := ⟨r - 1, by omega⟩
    obtain ⟨e, he⟩ := h 0 (Nat.succ_pos j)
    rw [Nat.add_zero] at he
    have hpair : rmAttempt env a =
        (AttemptStep.caughtTransient e, (rmAttempt env a).2) := by
      rw [← he]
    have hstep : rmLoop env backoff a (r' + 1) =
        ⟨(rmLoop env backoff (a + 1) r').result,
         (rmLoop env backoff (a + 1) r').attempts + 1,
         backoff ^ a :: (rmLoop env backoff (a + 1) r').sleeps,
         (rmAttempt env a).2 + (rmLoop env backoff (a + 1) r').calls⟩ := by
      rw [rmLoop, hpair]
    have ihh := ih (a + 1) r' (by omega)
      (fun i hi => by
        have := h (i + 1) (by omega)
        simpa [Nat.add_assoc, Nat.add_comm 1 i] using this)
    have harith1 : a + (j + 1) = a + 1 + j := by omega
    have harith2 : r' + 1 - (j + 1) = r' - j := by omega
    rw [hstep, harith1, harith2]
    refine ⟨ihh.1, ?_, ?_⟩
    · show (rmLoop env backoff (a + 1) r').attempts + 1 =
        j + 1 + (rmLoop env backoff (a + 1 + j) (r' - j)).attempts
      rw [ihh.2.1]
      omega
    · show backoff ^ a :: (rmLoop env backoff (a + 1) r').sleeps =
        ((List.range' a (j + 1)).map (fun i => backoff ^ i)) ++
          (rmLoop env backoff (a + 1 + j) (r' - j)).sleeps
      simp only [List.range'_succ, List.map_cons, List.cons_append]
      rw [ihh.2.2]

theorem safLoop_shift (env : DeleteEnv) (backoff : ℚ) :
    ∀ (j a r : Nat), j ≤ r →
      (∀ i, i < j → ∃ e, (safAttempt env (a + i)).1 = .caughtTransient e) →
      (safLoop env backoff a r).result = (safLoop env backoff (a + j) (r - j)).result
      ∧ (safLoop env backoff a r).attempts =
          j + (safLoop env backoff (a + j) (r - j)).attempts
      ∧ (safLoop env backoff a r).sleeps =
          ((List.range' a j).map (fun i => backoff ^ i)) ++
            (safLoop env backoff (a + j) (r - j)).sleeps := by
  intro j
  induction j with
  | zero =>
    intro a r _ _
    simp
  | succ j ih =>
    intro a r hjr h
    obtain ⟨r', rfl⟩ : ∃ r', r = r' + 1 := ⟨r - 1, by omega⟩
    obtain ⟨e, he⟩ := h 0 (Nat.succ_pos j)
    rw [Nat.add_zero] at he
    have hpair : safAttempt env a =
        (SafStep.caughtTransient e, (safAttempt env a).2) := by
      rw [← he]
    have hstep : safLoop env backoff a (r' + 1) =
        ⟨(safLoop env backoff (a + 1) r').result,
         (safLoop env backoff (a + 1) r').attempts + 1,
         backoff ^ a :: (safLoop env backoff (a + 1) r').sleeps,
         (safAttempt env a).2 + (safLoop env backoff (a + 1) r').calls⟩ := by
      rw [safLoop, hpair]
    have ihh := ih (a + 1) r' (by omega)
      (fun i hi => by
        have := h (i + 1) (by omega)
        simpa [Nat.add_assoc, Nat.add_comm 1 i] using this)
    have harith1 : a + (j + 1) = a + 1 + j := by omega
    have harith2 : r' + 1 - (j + 1) = r' - j := by omega
    rw [hstep, harith1, harith2]
    refine ⟨ihh.1, ?_, ?_⟩
    · show (safLoop env backoff (a + 1) r').attempts + 1 =
        j + 1 + (safLoop env backoff (a + 1 + j) (r' - j)).attempts
      rw [ihh.2.1]
      omega
    · show backoff ^ a :: (safLoop env backoff (a + 1) r').sleeps =
        ((List.range' a (j + 1)).map (fun i => backoff ^ i)) ++
          (safLoop env backoff (a + 1 + j) (r' - j)).sleeps
      simp only [List.range'_succ, List.map_cons, List.cons_append]
      rw [ihh.2.2]

/-- C6: Key Manager delete retry policy: on transient provider errors the
whole list-then-delete sequence is retried up to the fixed retry count
(3 attempts), sleeping `backoff_factor ** attempt` between attempts, and
a failure value (-1 resp. False) is returned only after the last attempt
fails; a non-transient provider error at any attempt `j` makes the
function return its failure value immediately (attempt `j + 1` is the
last, no further retry). -/
theorem C6_delete_retry_policy (env : DeleteEnv) :
    ((∀ a, a < 3 → ∃ e, (rmAttempt env a).1 = .caughtTransient e) →
        (delete_keys_for_account env).result = .ok (-1)
        ∧ (delete_keys_for_account env).attempts = 3
        ∧ (delete_keys_for_account env).sleeps =
            (List.range 3).map (fun a => (3 / 2 : ℚ) ^ a))
    ∧ (∀ j, j < 3 →
        (∀ a, a < j → ∃ e, (rmAttempt env a).1 = .caughtTransient e) →
        (rmAttempt env j).1 = .caughtHard →
        (delete_keys_for_account env).result = .ok (-1)
        ∧ (delete_keys_for_account env).attempts = j + 1
        ∧ (delete_keys_for_account env).sleeps =
            (List.range j).map (fun a => (3 / 2 : ℚ) ^ a))
    ∧ ((∀ a, a < 3 → ∃ e, (safAttempt env a).1 = .caughtTransient e) →
        (delete_all_user_keys_with_retry env).result = false
        ∧ (delete_all_user_keys_with_retry env).attempts = 3
        ∧ (delete_all_user_keys_with_retry env).sleeps =
            (List.range 3).map (fun a => (2 : ℚ) ^ a))
    ∧ (∀ j, j < 3 →
        (∀ a, a < j → ∃ e, (safAttempt env a).1 = .caughtTransient e) →
        (safAttempt env j).1 = .failFalse →
        (delete_all_user_keys_with_retry env).result = false
        ∧ (delete_all_user_keys_with_retry env).attempts = j + 1
        ∧ (delete_all_user_keys_with_retry env).sleeps =
            (List.range j).map (fun a => (2 : ℚ) ^ a)) := by
  refine ⟨?_, ?_, ?_, ?_⟩
  · intro h
    have hs := rmLoop_shift env (3 / 2) 3 0 3 le_rfl
      (fun i hi => by simpa using h i hi)
    refine ⟨?_, ?_, ?_⟩
    · show (rmLoop env (3 / 2) 0 3).result = .ok (-1)
      rw [hs.1]
      rfl
    · show (rmLoop env (3 / 2) 0 3).attempts = 3
      rw [hs.2.1]
      rfl
    · show (rmLoop env (3 / 2) 0 3).sleeps =
        (List.range 3).map (fun a => (3 / 2 : ℚ) ^ a)
      rw [hs.2.2]
      rfl
  · intro j hj h hhard
    have hs := rmLoop_shift env (3 / 2) j 0 3 (by omega)
      (fun i hi => by simpa using h i hi)
    have h32 : 3 - j = (2 - j) + 1 := by omega
    have hpair : rmAttempt env j = (.caughtHard, (rmAttempt env j).2) := by
      rw [← hhard]
    have hfin : rmLoop env (3 / 2) (0 + j) (3 - j) =
        ⟨.ok (-1), 1, [], (rmAttempt env j).2⟩ := by
      rw [Nat.zero_add, h32, rmLoop, hpair]
    refine ⟨?_, ?_, ?_⟩
    · show (rmLoop env (3 / 2) 0 3).result = .ok (-1)
      rw [hs.1, hfin]
    · show (rmLoop env (3 / 2) 0 3).attempts = j + 1
      rw [hs.2.1, hfin]
    · show (rmLoop env (3 / 2) 0 3).sleeps =
        (List.range j).map (fun a => (3 / 2 : ℚ) ^ a)
      rw [hs.2.2, hfin]
      simp [List.range_eq_range']
  · intro h
    have hs := safLoop_shift env 2 3 0 3 le_rfl
      (fun i hi => by simpa using h i hi)
    refine ⟨?_, ?_, ?_⟩
    · show (safLoop env 2 0 3).result = false
      rw [hs.1]
      rfl
    · show (safLoop env 2 0 3).attempts = 3
      rw [hs.2.1]
      rfl
    · show (safLoop env 2 0 3).sleeps = (List.range 3).map (fun a => (2 : ℚ) ^ a)
      rw [hs.2.2]
      rfl
  · intro j hj h hfail
    have hs := safLoop_shift env 2 j 0 3 (by omega)
      (fun i hi => by simpa using h i hi)
    have h32 : 3 - j = (2 - j) + 1 := by omega
    have hpair : safAttempt env j = (.failFalse, (safAttempt env j).2) := by
      rw [← hfail]
    have hfin : safLoop env 2 (0 + j) (3 - j) =
        ⟨false, 1, [], (safAttempt env j).2⟩ := by
      rw [Nat.zero_add, h32, safLoop, hpair]
    refine ⟨?_, ?_, ?_⟩
    · show (safLoop env 2 0 3).result = false
      rw [hs.1, hfin]
    · show (safLoop env 2 0 3).attempts = j + 1
      rw [hs.2.1, hfin]
    · show (safLoop env 2 0 3).sleeps = (List.range j).map (fun a => (2 : ℚ) ^ a)
      rw [hs.2.2, hfin]
      simp [List.range_eq_range']

/-- Provider oracle whose list call raises ServiceUnavailable (transient)
on every attempt. -/
def c6envT : DeleteEnv where
  listKeys := fun _ => .error .serviceUnavailable
  deleteKey := fun _ _ => none

/-- Provider oracle whose list call raises PermissionDenied (a
non-transient GoogleAPICallError) on every attempt. -/
def c6envH : DeleteEnv where
  listKeys := fun _ => .error .permissionDenied
  deleteKey := fun _ _ => none

theorem C6_delete_retry_policy_witness :
    (delete_keys_for_account c6envT).attempts = 3
    ∧ (delete_keys_for_account c6envT).sleeps = [1, 3 / 2, 9 / 4]
    ∧ (delete_keys_for_account c6envH).result = .ok (-1)
    ∧ (delete_keys_for_account c6envH).attempts = 1
    ∧ (delete_all_user_keys_with_retry c6envT).sleeps = [1, 2, 4]
    ∧ (delete_all_user_keys_with_retry c6envH).attempts = 1 := by
  have hT := (C6_delete_retry_policy c6envT).1
    (fun a _ => ⟨.serviceUnavailable, rfl⟩)
  have hH := (C6_delete_retry_policy c6envH).2.1 0 (by decide)
    (fun a ha => absurd ha (by omega)) rfl
  have hTs := (C6_delete_retry_policy c6envT).2.2.1
    (fun a _ => ⟨.serviceUnavailable, rfl⟩)
  have hHs := (C6_delete_retry_policy c6envH).2.2.2 0 (by decide)
    (fun a ha => absurd ha (by omega)) rfl
  refine ⟨hT.2.1, ?_, hH.1, hH.2.1, ?_, hHs.2.1⟩
  · rw [hT.2.2]
    norm_num [List.range_succ]
  · rw [hTs.2.2]
    norm_num [List.range_succ]

/-- Provider oracle for C9: attempt 0 lists three keys, deletes the first,
then hits a transient Aborted on the second; attempt 1 lists the two
surviving keys and deletes them both. -/
def c9env : DeleteEnv where
  listKeys := fun a => if a == 0 then .ok ["k1", "k2", "k3"] else .ok ["k2", "k3"]
  deleteKey := fun a k => if a == 0 && k == "k2" then some .aborted else none

/-- C9: the deleted-key count is reset at the start of each retry attempt
and the key list re-fetched, so the value returned after a successful
attempt counts only that final attempt's delete calls; consequently the
returned count can be smaller than the number of user-managed keys the
account had when the operation began (witnessed by an account that starts
with 3 keys but reports 2). -/
theorem C9_final_attempt_count (env : DeleteEnv) (j : Nat) (ks : List String)
    (hj : j < 3)
    (htrans : ∀ a, a < j → ∃ e, (rmAttempt env a).1 = .caughtTransient e)
    (hlist : env.listKeys j = .ok ks)
    (hdel : ∀ k ∈ ks, env.deleteKey j k = none) :
    (delete_keys_for_account env).result = .ok (ks.length : Int)
    ∧ ∃ env2 ks0, env2.listKeys 0 = .ok ks0 ∧ ks0.length = 3
        ∧ (delete_keys_for_account env2).result = .ok (2 : Int) := by
  constructor
  · have hs := rmLoop_shift env (3 / 2) j 0 3 (by omega)
      (fun i hi => by simpa using htrans i hi)
    have h32 : 3 - j = (2 - j) + 1 := by omega
    have hstep : rmAttempt env j = (.ret ks.length, ks.length) :=
      rmAttempt_success env j ks hlist hdel
    have hfin : rmLoop env (3 / 2) (0 + j) (3 - j) =
        ⟨.ok (ks.length : Int), 1, [], ks.length⟩ := by
      rw [Nat.zero_add, h32, rmLoop, hstep]
    show (rmLoop env (3 / 2) 0 3).result = .ok (ks.length : Int)
    rw [hs.1, hfin]
  · exact ⟨c9env, ["k1", "k2", "k3"], rfl, rfl, rfl⟩

theorem C9_final_attempt_count_witness :
    (delete_keys_for_account c9env).result = .ok (2 : Int) :=
  (C9_final_attempt_count c9env 1 ["k2", "k3"] (by decide)
    (fun a ha => by
      have ha0 : a = 0 := by omega
      subst ha0
      exact ⟨.aborted, rfl⟩)
    rfl (by decide)).1

/- ## Account Directory: prefix filter

Embeds removesakeys.py lines 10-33 (`find_target_service_accounts`); the
same split-and-startswith filter appears at makesakeys.py lines 72-82. -/

/-- Service-account record as observed from the directory listing; the
scripts consume only the email attribute. -/
structure ServiceAccount where
  email : String
deriving DecidableEq

/-- Python `email.split('@')[0]`: the characters strictly before the
first '@' (the whole string when there is none). -/
def shortName (email : String) : String :=
  ⟨email.data.takeWhile (fun c => c ≠ '@')⟩

/-- Python `s.startswith(pre)`: `pre` is a prefix of the character
sequence of `s` (case-sensitive, literal). -/
def startswith (s pre : String) : Bool :=
  pre.data.isPrefixOf s.data

/-- removesakeys.py `find_target_service_accounts`, error-free path:
keeps, in listing order, the accounts whose short name starts with the
prefix. -/
def find_target_service_accounts (accounts : List ServiceAccount)
    (pre : String) : List ServiceAccount :=
  accounts.filter (fun account => startswith (shortName account.email) pre)

theorem startswith_iff (s p : String) :
    startswith s p = true ↔ ∃ t, s = p ++ t := by
  rw [startswith, List.isPrefixOf_iff_prefix]
  constructor
  · rintro ⟨t, ht⟩
    refine ⟨⟨t⟩, String.ext ?_⟩
    rw [String.data_append]
    exact ht.symm
  · rintro ⟨t, rfl⟩
    exact ⟨t.data, (String.data_append p t).symm⟩

/-- C4: Account Directory prefix filter: for every prefix P the result
contains exactly the listed accounts whose derived short name (the part
of the email before '@') starts with P — and `startswith` is literal,
case-sensitive prefix matching: it holds exactly when the short name is
P followed by some (possibly empty) suffix, with no wildcard
semantics. -/
theorem C4_prefix_filter (accounts : List ServiceAccount) (pre : String)
    (a : ServiceAccount) :
    (a ∈ find_target_service_accounts accounts pre ↔
      a ∈ accounts ∧ startswith (shortName a.email) pre = true)
    ∧ (startswith (shortName a.email) pre = true ↔
      ∃ t, shortName a.email = pre ++ t) := by
  constructor
  · simp [find_target_service_accounts, List.mem_filter]
  · exact startswith_iff (shortName a.email) pre

/- ## Key Manager: create-and-save

Embeds makesakeys.py lines 16-44 and serviceaccountfactory.py lines
76-104 (`create_and_save_key` in each file).  The two bodies differ only
in the value returned from the InvalidArgument handler. -/

/-- Outcome of the provider's create-key call for one account. -/
inductive KeyCreateOutcome where
  | ok (keyData : String)
  | invalidArgument (msg : String)
  | otherError
deriving DecidableEq

/-- Observable result of one `create_and_save_key` call: the boolean
returned to the batch driver, the file content written (none when the
create call raised before the write), and whether the key-limit warning
was printed. -/
structure KeyCreateResult where
  ret : Bool
  fileWritten : Option String
  warnedKeyLimit : Bool
deriving DecidableEq

/-- Python `sub in s`: contiguous-substring containment on character
sequences. -/
def containsSub (p : List Char) : List Char → Bool
  | [] => p.isEmpty
  | c :: rest => p.isPrefixOf (c :: rest) || containsSub p rest

/-- Python `'key limit reached' in str(e).lower()` (str.lower embedded as
a character-wise toLower). -/
def keyLimitReached (msg : String) : Bool :=
  containsSub "key limit reached".data (msg.data.map Char.toLower)

/-- makesakeys.py `create_and_save_key` (discovery mode): both branches
of the InvalidArgument handler return True; only an unknown error
returns False. -/
def mk_create_and_save_key (o : KeyCreateOutcome) : KeyCreateResult :=
  match o with
  | .ok d => ⟨true, some d, false⟩
  | .invalidArgument msg => ⟨true, none, keyLimitReached msg⟩
  | .otherError => ⟨false, none, false⟩

/-- serviceaccountfactory.py `create_and_save_key` (factory mode): every
InvalidArgument returns False, as does an unknown error. -/
def sf_create_and_save_key (o : KeyCreateOutcome) : KeyCreateResult :=
  match o with
  | .ok d => ⟨true, some d, false⟩
  | .invalidArgument msg => ⟨false, none, keyLimitReached msg⟩
  | .otherError => ⟨false, none, false⟩

/-- C7: Key-limit special case: when the create-key call fails with the
provider's key-limit-reached condition, discovery mode logs the warning
and returns success — so the batch driver never puts the account in the
failed queue — while factory mode returns failure, so the batch driver
re-queues the account. -/
theorem C7_key_limit_modes (msg : String) (hmsg : keyLimitReached msg = true) :
    (mk_create_and_save_key (.invalidArgument msg)).ret = true
    ∧ (mk_create_and_save_key (.invalidArgument msg)).warnedKeyLimit = true
    ∧ (sf_create_and_save_key (.invalidArgument msg)).ret = false
    ∧ (∀ (accounts : List String) (oc : String → KeyCreateOutcome) (x : String),
        oc x = .invalidArgument msg →
        x ∉ failedOfPass (fun a => (mk_create_and_save_key (oc a)).ret) accounts)
    ∧ (∀ (accounts : List String) (oc : String → KeyCreateOutcome) (x : String),
        x ∈ accounts → oc x = .invalidArgument msg →
        x ∈ failedOfPass (fun a => (sf_create_and_save_key (oc a)).ret) accounts) := by
  refine ⟨rfl, by simp [mk_create_and_save_key, hmsg], rfl, ?_, ?_⟩
  · intro accounts oc x hx hmem
    have h := (mem_failedOfPass _ accounts x).1 hmem
    rw [hx] at h
    exact absurd h.2 (by simp [mk_create_and_save_key])
  · intro accounts oc x hxa hx
    refine (mem_failedOfPass _ accounts x).2 ⟨hxa, ?_⟩
    rw [hx]
    rfl

/-- Error text carrying the provider's key-limit condition. -/
def c7msg : String := "Maximum number of keys on account reached: Key Limit Reached"

theorem C7_key_limit_modes_witness :
    (mk_create_and_save_key (.invalidArgument c7msg)).ret = true
    ∧ (sf_create_and_save_key (.invalidArgument c7msg)).ret = false := by
  have h := C7_key_limit_modes c7msg (by decide)
  exact ⟨h.1, h.2.2.1⟩

/-- C10: Implicit: in discovery mode every InvalidArgument outcome — not
only key-limit-reached — is treated as handled: `create_and_save_key`
returns True (so the account is never re-queued) even though no key was
created and no output file was written. -/
theorem C10_invalid_argument_discovery (msg : String) :
    (mk_create_and_save_key (.invalidArgument msg)).ret = true
    ∧ (mk_create_and_save_key (.invalidArgument msg)).fileWritten = none
    ∧ (∀ (accounts : List String) (oc : String → KeyCreateOutcome) (x : String),
        oc x = .invalidArgument msg →
        x ∉ failedOfPass (fun a => (mk_create_and_save_key (oc a)).ret) accounts) := by
  refine ⟨rfl, rfl, ?_⟩
  intro accounts oc x hx hmem
  have h := (mem_failedOfPass _ accounts x).1 hmem
  rw [hx] at h
  exact absurd h.2 (by simp [mk_create_and_save_key])

/-- Error text with no key-limit condition in it. -/
def c10msg : String := "Precondition check failed"

theorem C10_invalid_argument_discovery_witness :
    (mk_create_and_save_key (.invalidArgument c10msg)).ret = true
    ∧ (mk_create_and_save_key (.invalidArgument c10msg)).fileWritten = none := by
  have h := C10_invalid_argument_discovery c10msg
  exact ⟨h.1, h.2.1⟩

/- ## Reconciler (serviceaccountfactory.py, step 1)

Embeds lines 132-133 (desired sets), 139-175 (the settle loop: list
existing accounts, diff, extract numbers from missing emails with
re.match, create), and 58-74 (`create_service_account`). -/

/-- Python `f-string {n:03d}` for a nonnegative integer: the decimal
digits left-padded with zeros to width 3 (wider numbers are not
truncated). -/
def pad3 (n : Nat) : String :=
  if n < 10 then "00" ++ Nat.repr n
  else if n < 100 then "0" ++ Nat.repr n
  else Nat.repr n

/-- Account name `prefix-NNN` built by the factory. -/
def saName (pre : String) (i : Nat) : String := pre ++ "-" ++ pad3 i

/-- Derived account email (serviceaccountfactory.py line 133). -/
def emailOf (proj name : String) : String :=
  name ++ "@" ++ proj ++ ".iam.gserviceaccount.com"

/-- Desired name set (line 132). -/
def targetNames (pre : String) (n : Nat) : Finset String :=
  (Finset.Icc 1 n).image (saName pre)

/-- Desired email set (line 133). -/
def targetEmails (pre proj : String) (n : Nat) : Finset String :=
  (targetNames pre n).image (emailOf proj)

/-- Missing set `target_sa_emails - existing_sa_emails` (line 145). -/
def missingEmails (pre proj : String) (n : Nat) (existing : Finset String) :
    Finset String :=
  targetEmails pre proj n \ existing

/-- Loop-exit test `if not missing_sa_emails: break` (line 147). -/
def reconcileDone (pre proj : String) (n : Nat) (existing : Finset String) :
    Bool :=
  decide (missingEmails pre proj n existing = ∅)

/-- Consume a literal pattern from the front of a character sequence,
returning the remainder on success. -/
def matchLit : List Char → List Char → Option (List Char)
  | [], s => some s
  | _ :: _, [] => none
  | c :: cs, d :: ds => if c = d then matchLit cs ds else none

/-- Numeric value of a decimal digit character. -/
def digitVal (c : Char) : Nat := c.toNat - 48

/-- Tail of the anchored regex of line 155: exactly three decimal digits
followed by a literal at-sign; the value is Python `int` of the three
digit characters (the captured group). -/
def threeDigitsAt : List Char → Option Nat
  | c1 :: c2 :: c3 :: '@' :: _ =>
    if c1.isDigit && c2.isDigit && c3.isDigit then
      some (100 * digitVal c1 + 10 * digitVal c2 + digitVal c3)
    else none
  | _ => none

/-- Literal-prefix semantics of line 155's anchored regex match on one
email: the email must start with the prefix, a hyphen, exactly three
digits and a literal at-sign; the result is the extracted number. -/
def extractNumber (pre email : String) : Option Nat :=
  (matchLit (pre.data ++ ['-']) email.data).bind threeDigitsAt

/-- Numbers the settle-loop iteration passes to `create_service_account`
(lines 153-163): iterate the missing email set (a Python set; modelled
in ascending order), extract each number that matches, then process them
in `sorted` order. -/
def reconcileCreateNumbers (pre proj : String) (n : Nat)
    (existing : Finset String) : List Nat :=
  (((missingEmails pre proj n existing).sort (· ≤ ·)).filterMap
    (extractNumber pre)).mergeSort (· ≤ ·)

/-- Outcome of the provider's create-account call. -/
inductive CreateOutcome where
  | ok
  | alreadyExists
  | otherError
deriving DecidableEq

/-- serviceaccountfactory.py `create_service_account` (lines 58-74): the
AlreadyExists handler returns True (idempotent create); any other
exception returns False. -/
def create_service_account (o : CreateOutcome) : Bool :=
  match o with
  | .ok => true
  | .alreadyExists => true
  | .otherError => false

/- ### Helper lemmas on the reconciler -/

/-- Check of the width-3 zero-padding: three digit characters whose value
is the padded number. -/
def pad3val : List Char → Option Nat
  | [c1, c2, c3] =>
    if c1.isDigit && c2.isDigit && c3.isDigit then
      some (100 * digitVal c1 + 10 * digitVal c2 + digitVal c3)
    else none
  | _ => none

set_option maxRecDepth 10000 in
theorem pad3_spec : ∀ k, k < 1000 → pad3val (pad3 k).data = some k := by
  decide

theorem pad3_shape (k : Nat) (hk : k < 1000) :
    ∃ c1 c2 c3, (pad3 k).data = [c1, c2, c3]
      ∧ (c1.isDigit && c2.isDigit && c3.isDigit) = true
      ∧ 100 * digitVal c1 + 10 * digitVal c2 + digitVal c3 = k := by
  have h := pad3_spec k hk
  match hd : (pad3 k).data with
  | [] => rw [hd] at h; exact absurd h (by simp [pad3val])
  | [c1] => rw [hd] at h; exact absurd h (by simp [pad3val])
  | [c1, c2] => rw [hd] at h; exact absurd h (by simp [pad3val])
  | [c1, c2, c3] =>
    rw [hd] at h
    simp only [pad3val] at h
    by_cases hdig : (c1.isDigit && c2.isDigit && c3.isDigit) = true
    · rw [if_pos hdig] at h
      exact ⟨c1, c2, c3, rfl, hdig, Option.some.inj h⟩
    · rw [if_neg hdig] at h
      exact absurd h (by simp)
  | c1 :: c2 :: c3 :: c4 :: rest => rw [hd] at h; exact absurd h (by simp [pad3val])

theorem matchLit_append (l r : List Char) : matchLit l (l ++ r) = some r := by
  induction l with
  | nil => rfl
  | cons c cs ih => simp [matchLit, ih]

theorem extractNumber_roundtrip (pre proj : String) (k : Nat) (hk : k < 1000) :
    extractNumber pre (emailOf proj (saName pre k)) = some k := by
  obtain ⟨c1, c2, c3, hd, hdig, hval⟩ := pad3_shape k hk
  have hdash : ("-" : String).data = ['-'] := rfl
  have hat : ("@" : String).data = ['@'] := rfl
  have hdata : (emailOf proj (saName pre k)).data =
      (pre.data ++ ['-']) ++
        (c1 :: c2 :: c3 :: '@' ::
          (proj.data ++ (".iam.gserviceaccount.com" : String).data)) := by
    simp [emailOf, saName, String.data_append, hd, hdash, hat]
  rw [extractNumber, hdata, matchLit_append]
  rw [Bool.and_eq_true, Bool.and_eq_true] at hdig
  simp [threeDigitsAt, hdig.1.1, hdig.1.2, hdig.2, hval]

/-- C5 counterexample: the claim quantifies over every desired set
`prefix-001 .. prefix-N`, but for N = 1000 the name `sa-1000` is in
desired minus existing (here: existing is empty) while the settle loop
issues no create call that would produce it: the anchored
three-digit regex never matches the four-digit suffix, so the claim's
"creates exactly the names in desired minus existing" fails. -/
theorem C5_reconciler_counterexample :
    emailOf "proj" (saName "sa" 1000) ∈ missingEmails "sa" "proj" 1000 ∅
    ∧ saName "sa" 1000 ∉
        (reconcileCreateNumbers "sa" "proj" 1000 ∅).map (saName "sa") := by
  constructor
  · refine Finset.mem_sdiff.2 ⟨?_, Finset.not_mem_empty _⟩
    refine Finset.mem_image.2 ⟨saName "sa" 1000, ?_, rfl⟩
    exact Finset.mem_image.2 ⟨1000, Finset.mem_Icc.2 ⟨by norm_num, le_rfl⟩, rfl⟩
  · intro hmem
    obtain ⟨k, hk, heq⟩ := List.mem_map.1 hmem
    have hk1 : k ∈ ((missingEmails "sa" "proj" 1000 ∅).sort (· ≤ ·)).filterMap
        (extractNumber "sa") := List.mem_mergeSort.1 hk
    obtain ⟨e, he, hex⟩ := List.mem_filterMap.1 hk1
    have hemem : e ∈ missingEmails "sa" "proj" 1000 ∅ :=
      (Finset.mem_sort (· ≤ ·)).1 he
    obtain ⟨het, -⟩ := Finset.mem_sdiff.1 hemem
    obtain ⟨name, hname, rfl⟩ := Finset.mem_image.1 het
    obtain ⟨i, hi, rfl⟩ := Finset.mem_image.1 hname
    obtain ⟨hi1, hi2⟩ := Finset.mem_Icc.1 hi
    by_cases hi999 : i ≤ 999
    · have hrt := extractNumber_roundtrip "sa" "proj" i (by omega)
      rw [hrt] at hex
      have hik : k = i := (Option.some.inj hex).symm
      subst hik
      obtain ⟨c1, c2, c3, hd, -, -⟩ := pad3_shape k (by omega)
      have hlen6 : (saName "sa" k).data.length = 6 := by
        have hsplit : (saName "sa" k).data = ("sa" ++ "-").data ++ (pad3 k).data := by
          simp [saName, String.data_append]
        rw [hsplit, hd]
        rfl
      have hlen7 : (saName "sa" 1000).data.length = 7 := by decide
      rw [heq] at hlen6
      rw [hlen6] at hlen7
      exact absurd hlen7 (by norm_num)
    · obtain rfl : i = 1000 := by omega
      have hnone : extractNumber "sa" (emailOf "proj" (saName "sa" 1000)) =
          none := by decide
      rw [hnone] at hex
      exact Option.noConfusion hex

/-- C5 (amended): for every desired name set `prefix-001 .. prefix-N`
with N at most 999 and every observed existing email set, one settle-loop
iteration issues create calls for exactly the numbers whose desired email
is missing from the existing set; an already-exists response to a create
call is treated as success; and when the desired email set is already
fully present the iteration issues zero create calls and breaks out of
the loop. -/
theorem C5_reconciler_amended (pre proj : String) (n : Nat)
    (existing : Finset String) (hn : n ≤ 999) :
    (∀ k, k ∈ reconcileCreateNumbers pre proj n existing ↔
      (1 ≤ k ∧ k ≤ n ∧ emailOf proj (saName pre k) ∉ existing))
    ∧ create_service_account .alreadyExists = true
    ∧ (targetEmails pre proj n ⊆ existing →
        reconcileCreateNumbers pre proj n existing = []
        ∧ reconcileDone pre proj n existing = true) := by
  refine ⟨?_, rfl, ?_⟩
  · intro k
    constructor
    · intro hk
      have hk1 : k ∈ ((missingEmails pre proj n existing).sort (· ≤ ·)).filterMap
          (extractNumber pre) := List.mem_mergeSort.1 hk
      obtain ⟨e, he, hex⟩ := List.mem_filterMap.1 hk1
      have hemem : e ∈ missingEmails pre proj n existing :=
        (Finset.mem_sort (· ≤ ·)).1 he
      obtain ⟨het, hnex⟩ := Finset.mem_sdiff.1 hemem
      obtain ⟨name, hname, rfl⟩ := Finset.mem_image.1 het
      obtain ⟨i, hi, rfl⟩ := Finset.mem_image.1 hname
      obtain ⟨hi1, hi2⟩ := Finset.mem_Icc.1 hi
      have hrt := extractNumber_roundtrip pre proj i (by omega)
      rw [hrt] at hex
      obtain rfl : i = k := Option.some.inj hex
      exact ⟨hi1, hi2, hnex⟩
    · rintro ⟨hk1, hk2, hnex⟩
      have hmem : emailOf proj (saName pre k) ∈ missingEmails pre proj n existing := by
        refine Finset.mem_sdiff.2 ⟨?_, hnex⟩
        refine Finset.mem_image.2 ⟨saName pre k, ?_, rfl⟩
        exact Finset.mem_image.2 ⟨k, Finset.mem_Icc.2 ⟨hk1, hk2⟩, rfl⟩
      refine List.mem_mergeSort.2 (List.mem_filterMap.2
        ⟨emailOf proj (saName pre k), ?_, extractNumber_roundtrip pre proj k (by omega)⟩)
      exact (Finset.mem_sort (· ≤ ·)).2 hmem
  · intro hsub
    have hmissing : missingEmails pre proj n existing = ∅ :=
      Finset.sdiff_eq_empty_iff_subset.2 hsub
    constructor
    · rw [reconcileCreateNumbers, hmissing, Finset.sort_empty,
        List.filterMap_nil, List.mergeSort_nil]
    · rw [reconcileDone, hmissing]
      decide

theorem C5_reconciler_amended_witness :
    1 ∈ reconcileCreateNumbers "sa" "proj" 2 ∅
    ∧ create_service_account .alreadyExists = true := by
  have h := C5_reconciler_amended "sa" "proj" 2 ∅ (by norm_num)
  exact ⟨(h.1 1).2 ⟨le_rfl, by norm_num, Finset.not_mem_empty _⟩, h.2.1⟩
